import Mathlib

/-!
Verification of the concurrent work-distribution and result-aggregation
engine of the is-perf-client load harness: partitioning of user/tenant/retry
work across threads, per-worker operation loops, the statistics aggregator,
the failed-users CSV ledger (write and read-back), the ramp-up scheduler, and
executor construction effects on the two CSV files.

Remote HTTP calls are modelled by a client oracle of type
`Int → String → Except String SCIMUserResponse` (tenant index and username in,
SCIM response or error text out), matching the success/failure shape the code
observes.  Wall-clock timestamps are passed in as an opaque string parameter.
-/

namespace ISPerf

/-!
Decimal codec: `Sprintf_d` models Go `fmt.Sprintf("%d", i)` on `int`, and
`Atoi` models `strconv.Atoi` (optional sign followed by one or more decimal
digits; anything else is an error, modelled as `none`).
-/

def parseDigits : List Char → Option Nat → Option Nat
  | [], acc => acc
  | c :: cs, acc =>
      if '0' ≤ c ∧ c ≤ '9' then
        parseDigits cs (some ((acc.getD 0) * 10 + (c.toNat - 48)))
      else none

def AtoiChars : List Char → Option Int
  | [] => none
  | c :: cs =>
      if c = '-' then Option.map (fun n : Nat => -(n : Int)) (parseDigits cs none)
      else if c = '+' then Option.map (fun n : Nat => (n : Int)) (parseDigits cs none)
      else Option.map (fun n : Nat => (n : Int)) (parseDigits (c :: cs) none)

def Atoi (s : String) : Option Int := AtoiChars s.data

def natToDecimalAux : Nat → Nat → List Char
  | 0, _ => []
  | fuel + 1, n =>
      if n < 10 then [Nat.digitChar n]
      else natToDecimalAux fuel (n / 10) ++ [Nat.digitChar (n % 10)]

def natToDecimal (n : Nat) : String := ⟨natToDecimalAux (n + 1) n⟩

def Sprintf_d (i : Int) : String :=
  if i < 0 then "-" ++ natToDecimal i.natAbs else natToDecimal i.toNat

theorem digitChar_spec (k : Nat) (h : k < 10) :
    ('0' ≤ Nat.digitChar k ∧ Nat.digitChar k ≤ '9') ∧ (Nat.digitChar k).toNat = 48 + k := by
  interval_cases k <;> exact ⟨by decide, by decide⟩

theorem parseDigits_append (l₁ l₂ : List Char) (acc : Option Nat) (m : Nat)
    (h : parseDigits l₁ acc = some m) :
    parseDigits (l₁ ++ l₂) acc = parseDigits l₂ (some m) := by
  induction l₁ generalizing acc with
  | nil =>
      simp only [parseDigits] at h
      simp [h, parseDigits]
  | cons c cs ih =>
      simp only [parseDigits] at h ⊢
      by_cases hc : '0' ≤ c ∧ c ≤ '9'
      · rw [if_pos hc] at h ⊢
        exact ih _ h
      · rw [if_neg hc] at h
        exact absurd h (by simp)

theorem parseDigits_natToDecimalAux (fuel n : Nat) (hn : n < fuel) (a : Option Nat) :
    parseDigits (natToDecimalAux fuel n) a
      = some ((a.getD 0) * 10 ^ (natToDecimalAux fuel n).length + n) := by
  induction fuel generalizing n a with
  | zero => omega
  | succ fuel ih =>
      by_cases h10 : n < 10
      · simp only [natToDecimalAux, if_pos h10, parseDigits]
        have hd := digitChar_spec n h10
        rw [if_pos hd.1]
        simp [hd.2, parseDigits]
      · have hlt : n / 10 < fuel := by
          have : n / 10 < n := Nat.div_lt_self (by omega) (by omega)
          omega
        simp only [natToDecimalAux, if_neg h10]
        have h1 := ih (n / 10) hlt a
        rw [parseDigits_append _ _ _ _ h1]
        have hd := digitChar_spec (n % 10) (Nat.mod_lt _ (by omega))
        simp only [parseDigits, if_pos hd.1, hd.2]
        rw [List.length_append]
        have hx : (48 : Nat) + n % 10 - 48 = n % 10 := by omega
        rw [hx]
        congr 1
        have hpow : (10 : Nat) ^ ((natToDecimalAux fuel (n / 10)).length + [Nat.digitChar (n % 10)].length)
            = 10 ^ (natToDecimalAux fuel (n / 10)).length * 10 := by
          simp [pow_succ]
        rw [hpow]
        have hdm : n / 10 * 10 + n % 10 = n := by omega
        calc (a.getD 0 * 10 ^ (natToDecimalAux fuel (n / 10)).length + n / 10) * 10 + n % 10
            = a.getD 0 * (10 ^ (natToDecimalAux fuel (n / 10)).length * 10) + (n / 10 * 10 + n % 10) := by
              ring
          _ = a.getD 0 * (10 ^ (natToDecimalAux fuel (n / 10)).length * 10) + n := by rw [hdm]

theorem natToDecimalAux_head (fuel n : Nat) (hn : n < fuel) :
    ∃ k cs, natToDecimalAux fuel n = Nat.digitChar k :: cs ∧ k < 10 := by
  induction fuel generalizing n with
  | zero => omega
  | succ fuel ih =>
      by_cases h10 : n < 10
      · exact ⟨n, [], by simp [natToDecimalAux, if_pos h10], h10⟩
      · have hlt : n / 10 < fuel := by
          have : n / 10 < n := Nat.div_lt_self (by omega) (by omega)
          omega
        obtain ⟨k, cs, hk, hk10⟩ := ih (n / 10) hlt
        exact ⟨k, cs ++ [Nat.digitChar (n % 10)], by simp [natToDecimalAux, if_neg h10, hk], hk10⟩

theorem Atoi_natToDecimal (n : Nat) : Atoi (natToDecimal n) = some (n : Int) := by
  obtain ⟨k, cs, hk, hk10⟩ := natToDecimalAux_head (n + 1) n (by omega)
  have hd := digitChar_spec k hk10
  have hdata : (natToDecimal n).data = natToDecimalAux (n + 1) n := rfl
  rw [Atoi, hdata, hk]
  have hne1 : Nat.digitChar k ≠ '-' := by
    intro h
    have := congrArg Char.toNat h
    rw [hd.2] at this
    simp only [show ('-').toNat = 45 from rfl] at this
    omega
  have hne2 : Nat.digitChar k ≠ '+' := by
    intro h
    have := congrArg Char.toNat h
    rw [hd.2] at this
    simp only [show ('+').toNat = 43 from rfl] at this
    omega
  rw [AtoiChars, if_neg hne1, if_neg hne2, ← hk]
  rw [parseDigits_natToDecimalAux (n + 1) n (by omega) none]
  simp

theorem Atoi_Sprintf_d (t : Int) : Atoi (Sprintf_d t) = some t := by
  by_cases ht : t < 0
  · rw [Sprintf_d, if_pos ht]
    obtain ⟨k, cs, hk, hk10⟩ := natToDecimalAux_head (t.natAbs + 1) t.natAbs (by omega)
    have hdata : (("-" : String) ++ natToDecimal t.natAbs).data
        = '-' :: natToDecimalAux (t.natAbs + 1) t.natAbs := by
      simp [String.data_append]
      rfl
    rw [Atoi, hdata, AtoiChars, if_pos rfl]
    rw [show natToDecimalAux (t.natAbs + 1) t.natAbs
        = (natToDecimal t.natAbs).data from rfl]
    have : parseDigits (natToDecimal t.natAbs).data none
        = some ((Option.getD none 0) * 10 ^ (natToDecimal t.natAbs).data.length + t.natAbs) :=
      parseDigits_natToDecimalAux (t.natAbs + 1) t.natAbs (by omega) none
    rw [this]
    simp only [Option.getD_none, zero_mul, zero_add, Option.map_some']
    congr 1
    rw [Int.ofNat_natAbs_of_nonpos (by omega : t ≤ 0), neg_neg]
  · rw [Sprintf_d, if_neg ht]
    rw [Atoi_natToDecimal]
    congr 1
    exact Int.toNat_of_nonneg (by omega)

/-!
Data model, mirroring the Go struct declarations of the repository
(workers.go, csv_writer.go, config.go, http_client.go).
-/

structure SCIMUserResponse where
  ID : String
  UserName : String
deriving Repr, DecidableEq

structure FailedUser where
  TenantID : Int
  Username : String
  Error : String
  Timestamp : String
deriving Repr, DecidableEq

structure TestResult where
  TenantIndex : Int
  UserIndex : Int
  ScimID : String
  Success : Bool
  Error : Option String
  ThreadID : Nat
deriving Repr, DecidableEq

structure WorkerTask where
  UserStart : Int
  UserEnd : Int
  ThreadID : Nat
deriving Repr, DecidableEq

structure RetryWorkerTask where
  ThreadID : Nat
  UserStart : Nat
  UserEnd : Nat
  FailedUsers : List FailedUser
deriving Repr, DecidableEq

structure TestStats where
  TotalUsers : Nat
  SuccessUsers : Nat
  FailedUsers : Nat
  TotalRoles : Nat
  SuccessRoles : Nat
  FailedRoles : Nat
deriving Repr, DecidableEq

/-- Execution part of the configuration (config.go ExecutionConfig); only the
fields the verified core reads.  Counts are modelled as `Nat` (the code treats
them as non-negative totals), start numbers as `Int`. -/
structure ExecutionConfig where
  NoOfThreads : Nat
  NoOfUsers : Nat
  NoOfTenants : Nat
  UserStartNumber : Int
  TenantStartNumber : Int
  RampUpPeriod : Nat
deriving Repr, DecidableEq

/-- Configuration; UsernamePfx models the usernamePrefix test variable. -/
structure Config where
  UsernamePfx : String
  Execution : ExecutionConfig
deriving Repr, DecidableEq

/-- Models Config.GetTestUsername: fmt.Sprintf with the username test variable
followed by the decimal user index. -/
def GetTestUsername (cfg : Config) (userIndex : Int) : String :=
  cfg.UsernamePfx ++ Sprintf_d userIndex

/-- The client capability used for one user-creation attempt:
CreateUserWithName(tenantIndex, username) returning a SCIM response or an
error message.  The HTTP transport is the external collaborator. -/
def CreateUserFn : Type := Int → String → Except String SCIMUserResponse

/-- Models HTTPClient.CreateUser(tenantIndex, userIndex): derive the username
with GetTestUsername and delegate to CreateUserWithName. -/
def CreateUser (client : CreateUserFn) (cfg : Config) (tenantIndex userIndex : Int) :
    Except String SCIMUserResponse :=
  client tenantIndex (GetTestUsername cfg userIndex)

/-!
Stats aggregator (csv_writer.go TestStats).  The Go code serialises every
mutation under a mutex, so the observable behaviour of any concurrent run is
that of some sequential interleaving, modelled as a list of events folded over
the fresh stats object.
-/

def NewTestStats : TestStats :=
  { TotalUsers := 0, SuccessUsers := 0, FailedUsers := 0
    TotalRoles := 0, SuccessRoles := 0, FailedRoles := 0 }

/-- Models TestStats.IncrementRole. -/
def TestStats.IncrementRole (ts : TestStats) (success : Bool) : TestStats :=
  let ts := { ts with TotalRoles := ts.TotalRoles + 1 }
  if success then { ts with SuccessRoles := ts.SuccessRoles + 1 }
  else { ts with FailedRoles := ts.FailedRoles + 1 }

/-- Models TestStats.IncrementUser. -/
def TestStats.IncrementUser (ts : TestStats) (success : Bool) : TestStats :=
  let ts := { ts with TotalUsers := ts.TotalUsers + 1 }
  if success then { ts with SuccessUsers := ts.SuccessUsers + 1 }
  else { ts with FailedUsers := ts.FailedUsers + 1 }

/-- One observation delivered to the aggregator: which category it belongs to
and whether the operation succeeded. -/
inductive StatEvent where
  | role (success : Bool)
  | user (success : Bool)
deriving Repr, DecidableEq

def applyEvent (ts : TestStats) : StatEvent → TestStats
  | StatEvent.role success => ts.IncrementRole success
  | StatEvent.user success => ts.IncrementUser success

/-- The stats reached after a serialised sequence of observe calls starting
from the fresh stats object. -/
def applyEvents (es : List StatEvent) : TestStats :=
  es.foldl applyEvent NewTestStats

/-- Models processResults in executor.go: drain the result channel, calling
IncrementUser with each result's success flag. -/
def processResults (results : List TestResult) (ts : TestStats) : TestStats :=
  results.foldl (fun acc r => acc.IncrementUser r.Success) ts

/-- Models the two guarded success-rate computations in TestStats.PrintStats:
a rate is computed (and printed) only when the corresponding total is
positive; `none` means the percentage line is omitted.  The float64 division
is modelled exactly over ℚ. -/
def roleSuccessRate (ts : TestStats) : Option ℚ :=
  if 0 < ts.TotalRoles then some ((ts.SuccessRoles : ℚ) / (ts.TotalRoles : ℚ) * 100) else none

def userSuccessRate (ts : TestStats) : Option ℚ :=
  if 0 < ts.TotalUsers then some ((ts.SuccessUsers : ℚ) / (ts.TotalUsers : ℚ) * 100) else none

def PrintStatsRates (ts : TestStats) : Option ℚ × Option ℚ :=
  (roleSuccessRate ts, userSuccessRate ts)

/-!
Partitioning.  Each executor entry point splits its total across
NoOfThreads with integer division, handing the first total-mod-threads
threads one extra unit.  The three loops are embedded separately because
their bodies differ (ExecuteUserCreation appends a task unconditionally;
ExecuteRoleCreation and ExecuteRetryFailed skip zero-size shares).
-/

/-- Models the task-building loop of ExecuteUserCreation (executor.go): one
WorkerTask is appended for every threadID, empty or not; the first argument is
the remaining number of loop iterations. -/
def buildWorkerTasks : Nat → Nat → Nat → Nat → Int → List WorkerTask
  | 0, _, _, _, _ => []
  | n + 1, usersPerThread, remainingUsers, threadID, userStart =>
      let threadUsers := if 0 < remainingUsers then usersPerThread + 1 else usersPerThread
      let remainingUsers := if 0 < remainingUsers then remainingUsers - 1 else remainingUsers
      let userEnd := userStart + threadUsers - 1
      { UserStart := userStart, UserEnd := userEnd, ThreadID := threadID } ::
        buildWorkerTasks n usersPerThread remainingUsers (threadID + 1) (userEnd + 1)

/-- The WorkerTasks built by ExecuteUserCreation for the given totals; a
goroutine is spawned for each element of this list. -/
def ExecuteUserCreationTasks (noOfUsers noOfThreads : Nat) (userStartNumber : Int) :
    List WorkerTask :=
  buildWorkerTasks noOfThreads (noOfUsers / noOfThreads) (noOfUsers % noOfThreads) 0 userStartNumber

structure RoleWorkerSpawn where
  ThreadID : Nat
  TenantStart : Int
  TenantEnd : Int
deriving Repr, DecidableEq

/-- Models the spawning loop of ExecuteRoleCreation (executor.go): a worker is
started only when threadTenants is positive; tenantStart always advances past
the computed tenantEnd. -/
def buildRoleSpawns : Nat → Nat → Nat → Nat → Int → List RoleWorkerSpawn
  | 0, _, _, _, _ => []
  | n + 1, tenantsPerThread, remainingTenants, threadID, tenantStart =>
      let threadTenants := if threadID < remainingTenants then tenantsPerThread + 1 else tenantsPerThread
      let tenantEnd := tenantStart + threadTenants - 1
      let rest := buildRoleSpawns n tenantsPerThread remainingTenants (threadID + 1) (tenantEnd + 1)
      if 0 < threadTenants then
        { ThreadID := threadID, TenantStart := tenantStart, TenantEnd := tenantEnd } :: rest
      else rest

/-- The role-creation workers spawned by ExecuteRoleCreation. -/
def ExecuteRoleCreationSpawns (noOfTenants noOfThreads : Nat) (tenantStartNumber : Int) :
    List RoleWorkerSpawn :=
  buildRoleSpawns noOfThreads (noOfTenants / noOfThreads) (noOfTenants % noOfThreads) 0
    tenantStartNumber

/-- Models the retry task-building loop of ExecuteRetryFailed (retry.go): a
RetryWorkerTask over 0-based list positions is appended only when threadUsers
is positive, in which case userStart advances past userEnd. -/
def buildRetryTasks (failedUsers : List FailedUser) :
    Nat → Nat → Nat → Nat → Nat → List RetryWorkerTask
  | 0, _, _, _, _ => []
  | n + 1, usersPerThread, remainingUsers, threadID, userStart =>
      let threadUsers := if threadID < remainingUsers then usersPerThread + 1 else usersPerThread
      if 0 < threadUsers then
        let userEnd := userStart + threadUsers - 1
        { ThreadID := threadID, UserStart := userStart, UserEnd := userEnd,
          FailedUsers := failedUsers } ::
          buildRetryTasks failedUsers n usersPerThread remainingUsers (threadID + 1) (userEnd + 1)
      else buildRetryTasks failedUsers n usersPerThread remainingUsers (threadID + 1) userStart

/-- The retry worker tasks built by ExecuteRetryFailed over the flat list of
failed users read from the ledger. -/
def ExecuteRetryFailedTasks (failedUsers : List FailedUser) (noOfThreads : Nat) :
    List RetryWorkerTask :=
  buildRetryTasks failedUsers noOfThreads (failedUsers.length / noOfThreads)
    (failedUsers.length % noOfThreads) 0 0

/-!
Workers.  A Go counted for-loop over an inclusive int range is embedded as a
map over the list of the range's values.
-/

/-- The values taken by a loop variable running from lo to hi inclusive. -/
def intRangeIncl (lo hi : Int) : List Int :=
  (List.range (hi + 1 - lo).toNat).map (fun k : Nat => lo + (k : Int))

/-- One iteration of userCreationWorker's inner loop (executor.go): attempt
CreateUser, build the TestResult sent to the channel, and on failure append a
row to the failed-users ledger when the writer is present (it is nil in retry
mode). -/
def createUserIteration (client : CreateUserFn) (cfg : Config) (now : String)
    (threadID : Nat) (writerPresent : Bool) (userIndex tenantIndex : Int) :
    TestResult × List FailedUser :=
  match CreateUser client cfg tenantIndex userIndex with
  | Except.ok userResp =>
      ({ TenantIndex := tenantIndex, UserIndex := userIndex, ScimID := userResp.ID,
         Success := true, Error := none, ThreadID := threadID }, [])
  | Except.error e =>
      let username := GetTestUsername cfg userIndex
      ({ TenantIndex := tenantIndex, UserIndex := userIndex, ScimID := "",
         Success := false, Error := some e, ThreadID := threadID },
       if writerPresent then
         [{ TenantID := tenantIndex, Username := username, Error := e, Timestamp := now }]
       else [])

/-- Models userCreationWorker (executor.go): for every user index of the
assigned range and, inside it, every tenant index of the configured tenant
range, run one iteration; returns the results sent to the channel in order,
and the rows appended to the failed-users ledger. -/
def userCreationWorker (client : CreateUserFn) (cfg : Config) (now : String)
    (writerPresent : Bool) (task : WorkerTask) : List TestResult × List FailedUser :=
  let steps := (intRangeIncl task.UserStart task.UserEnd).flatMap (fun userIndex =>
    (intRangeIncl cfg.Execution.TenantStartNumber
        (cfg.Execution.TenantStartNumber + cfg.Execution.NoOfTenants - 1)).map
      (fun tenantIndex =>
        createUserIteration client cfg now task.ThreadID writerPresent userIndex tenantIndex))
  (steps.map Prod.fst, (steps.map Prod.snd).flatten)

/-- The slice task.FailedUsers[task.UserStart : task.UserEnd+1] taken by a
retry worker. -/
def usersToRetry (task : RetryWorkerTask) : List FailedUser :=
  (task.FailedUsers.drop task.UserStart).take (task.UserEnd + 1 - task.UserStart)

/-- Models the username-to-index heuristic of retryUsersWorkerScalable:
split on the underscore and Atoi the last part, defaulting to -1. -/
def extractUserIndex (username : String) : Int :=
  let parts := username.splitOn "_"
  if 1 < parts.length then
    match Atoi (parts.getLastD "") with
    | some idx => idx
    | none => -1
  else -1

/-- The loop body of retryUsersWorkerScalable (retry.go): re-attempt each
ledger record with CreateUserWithName on the record's TenantID and Username,
emit one TestResult per record, and append a fresh ledger row for each record
that fails again. -/
def retryLoop (client : CreateUserFn) (now : String) (threadID : Nat) :
    List FailedUser → List TestResult × List FailedUser
  | [] => ([], [])
  | user :: rest =>
      let userIndex := extractUserIndex user.Username
      let next := retryLoop client now threadID rest
      match client user.TenantID user.Username with
      | Except.ok userResp =>
          ({ TenantIndex := user.TenantID, UserIndex := userIndex, ScimID := userResp.ID,
             Success := true, Error := none, ThreadID := threadID } :: next.1, next.2)
      | Except.error e =>
          ({ TenantIndex := user.TenantID, UserIndex := userIndex, ScimID := "",
             Success := false, Error := some e, ThreadID := threadID } :: next.1,
           { TenantID := user.TenantID, Username := user.Username, Error := e,
             Timestamp := now } :: next.2)

/-- Models retryUsersWorkerScalable: run the loop over the worker's slice. -/
def retryUsersWorkerScalable (client : CreateUserFn) (now : String)
    (task : RetryWorkerTask) : List TestResult × List FailedUser :=
  retryLoop client now task.ThreadID (usersToRetry task)

/-!
Failed-users CSV ledger (csv_writer.go, retry.go).  A file is modelled by its
logical CSV rows; `none` stands for an absent file.
-/

def ledgerHeader : List String := ["TenantID", "Username", "Error", "Timestamp"]

/-- Models NewFailedUsersCSVWriter: delete any existing file, create it fresh
and write the header row. -/
def NewFailedUsersCSVWriterRows : List (List String) := [ledgerHeader]

/-- Models FailedUsersCSVWriter.WriteFailedUser: append one 4-field record,
the tenant id rendered in decimal. -/
def WriteFailedUser (rows : List (List String)) (tenantID : Int)
    (username errorMsg timestamp : String) : List (List String) :=
  rows ++ [[Sprintf_d tenantID, username, errorMsg, timestamp]]

/-- Models NewFailedUsersCSVWriterAppend: open (creating an empty file when
absent) and, exactly when the file has size zero, write the header row. -/
def NewFailedUsersCSVWriterAppendRows (file : Option (List (List String))) :
    List (List String) :=
  let rows := file.getD []
  if rows = [] then [ledgerHeader] else rows

/-- The per-row filter of readFailedUsersFromCSV: skip records shorter than 4
fields and records whose first field does not parse as an integer. -/
def parseFailedUserRows : List (List String) → List FailedUser
  | [] => []
  | record :: rest =>
      if record.length < 4 then parseFailedUserRows rest
      else
        match Atoi (record.getD 0 "") with
        | none => parseFailedUserRows rest
        | some tenantID =>
            { TenantID := tenantID, Username := record.getD 1 "", Error := record.getD 2 "",
              Timestamp := record.getD 3 "" } :: parseFailedUserRows rest

/-- Models readFailedUsersFromCSV (retry.go): skip a leading header row when
its first field is TenantID (in either spelling), then filter-parse the rest. -/
def readFailedUsersFromCSV (records : List (List String)) : List FailedUser :=
  let startRow :=
    if 0 < records.length ∧
        ((records.headD []).getD 0 "" = "TenantID" ∨
          (records.headD []).getD 0 "" = "Tenant ID") then 1 else 0
  parseFailedUserRows (records.drop startRow)

/-- The observable state ExecuteRetryFailed (retry.go) reaches before any
worker goroutine would start: the ledger rows after the append-mode open, the
fact that the ledger was opened for writing, the parsed failed users, and the
retry tasks that will each receive a goroutine (empty when the read produced
no users, in which case the function returns at once). -/
structure RetrySetup where
  ledgerRows : List (List String)
  openedLedgerForWrite : Bool
  failedUsers : List FailedUser
  tasks : List RetryWorkerTask
deriving Repr, DecidableEq

def ExecuteRetryFailedSetup (initialLedger : Option (List (List String)))
    (noOfThreads : Nat) : RetrySetup :=
  let rows := NewFailedUsersCSVWriterAppendRows initialLedger
  let failedUsers := readFailedUsersFromCSV rows
  if failedUsers.length = 0 then
    { ledgerRows := rows, openedLedgerForWrite := true, failedUsers := failedUsers, tasks := [] }
  else
    { ledgerRows := rows, openedLedgerForWrite := true, failedUsers := failedUsers,
      tasks := ExecuteRetryFailedTasks failedUsers noOfThreads }

/-- The statistics reached by a full retry run: every spawned worker's results
drained through processResults starting from the fresh stats object. -/
def retryRunStats (client : CreateUserFn) (now : String)
    (initialLedger : Option (List (List String))) (noOfThreads : Nat) : TestStats :=
  let setup := ExecuteRetryFailedSetup initialLedger noOfThreads
  processResults
    ((setup.tasks.map (fun t => (retryUsersWorkerScalable client now t).1)).flatten)
    NewTestStats

/-!
Ramp-up scheduler.  The launcher computes one delay, then alternates spawn and
sleep; Go's Duration arithmetic is int64 nanoseconds, and dividing a Duration
by zero panics, modelled as `none`.
-/

def rampUpDelayNanos (rampUpPeriod noOfThreads : Nat) : Option Nat :=
  if noOfThreads = 0 then none
  else some (rampUpPeriod * 1000000000 / noOfThreads)

/-- Models the spawning loop of ExecuteUserCreation / ExecuteRetryFailed:
spawn the next worker at the current clock, then sleep rampUpDelay when it is
positive.  Returns each task paired with its launch time. -/
def launchWorkers (rampUpDelay : Nat) : List WorkerTask → Nat → List (Nat × WorkerTask)
  | [], _ => []
  | task :: rest, clock =>
      (clock, task) ::
        launchWorkers rampUpDelay rest (clock + (if 0 < rampUpDelay then rampUpDelay else 0))

/-!
Executor construction (executor.go NewTestExecutor) over the two CSV files.
-/

structure FileSystem where
  scimIdCsv : Option (List (List String))
  failedUsersCsv : Option (List (List String))
deriving Repr, DecidableEq

def scimHeader : List String := ["scim_id"]

/-- Models NewCSVWriter: delete any existing file, create it fresh and write
the scim_id header row. -/
def NewCSVWriterRows : List (List String) := [scimHeader]

/-- Models NewTestExecutor: always recreate the scim-id CSV; recreate the
failed-users CSV only when not in retry mode. -/
def NewTestExecutorFS (retryMode : Bool) (fs : FileSystem) : FileSystem :=
  let fs := { fs with scimIdCsv := some NewCSVWriterRows }
  if retryMode then fs
  else { fs with failedUsersCsv := some NewFailedUsersCSVWriterRows }

/-!
Partition lemmas.
-/

/-- Number of user indices covered by a WorkerTask's inclusive range. -/
def taskSize (t : WorkerTask) : Nat := (t.UserEnd + 1 - t.UserStart).toNat

/-- The ranges of the list are consecutive: the first starts at s and each
later one starts immediately after the previous one's end. -/
def chainFrom (s : Int) : List WorkerTask → Prop
  | [] => True
  | t :: ts => t.UserStart = s ∧ chainFrom (t.UserEnd + 1) ts

theorem buildWorkerTasks_length (n ups rem tid : Nat) (s : Int) :
    (buildWorkerTasks n ups rem tid s).length = n := by
  induction n generalizing rem tid s with
  | zero => rfl
  | succ n ih => simp [buildWorkerTasks, ih]

theorem buildWorkerTasks_sizes (n ups rem tid : Nat) (s : Int) :
    ((buildWorkerTasks n ups rem tid s).map taskSize).sum = n * ups + min rem n := by
  induction n generalizing rem tid s with
  | zero => simp [buildWorkerTasks]
  | succ n ih =>
      simp only [buildWorkerTasks, List.map_cons, List.sum_cons, ih]
      by_cases h : 0 < rem
      · simp only [if_pos h, taskSize]
        have hs : s + (↑(ups + 1) : Int) - 1 + 1 - s = ((ups + 1 : Nat) : Int) := by ring
        rw [hs, Int.toNat_natCast, Nat.succ_mul]
        omega
      · simp only [if_neg h, taskSize]
        have hs : s + (↑ups : Int) - 1 + 1 - s = ((ups : Nat) : Int) := by ring
        rw [hs, Int.toNat_natCast, Nat.succ_mul]
        omega

theorem buildWorkerTasks_chain (n ups rem tid : Nat) (s : Int) :
    chainFrom s (buildWorkerTasks n ups rem tid s) := by
  induction n generalizing rem tid s with
  | zero => simp [buildWorkerTasks, chainFrom]
  | succ n ih =>
      simp only [buildWorkerTasks, chainFrom]
      refine ⟨by simp, ih _ _ _⟩

theorem buildWorkerTasks_bounds (n ups rem tid : Nat) (s : Int) :
    ∀ t ∈ buildWorkerTasks n ups rem tid s, s ≤ t.UserStart ∧ t.UserStart ≤ t.UserEnd + 1 := by
  induction n generalizing rem tid s with
  | zero => simp [buildWorkerTasks]
  | succ n ih =>
      intro t ht
      simp only [buildWorkerTasks, List.mem_cons] at ht
      rcases ht with h | h
      · subst h
        refine ⟨le_refl _, ?_⟩
        simp only []
        omega
      · have hb := ih _ (tid + 1) _ t h
        refine ⟨?_, hb.2⟩
        have h1 := hb.1
        omega

theorem buildWorkerTasks_pairwise (n ups rem tid : Nat) (s : Int) :
    (buildWorkerTasks n ups rem tid s).Pairwise (fun a b => a.UserEnd < b.UserStart) := by
  induction n generalizing rem tid s with
  | zero => simp [buildWorkerTasks]
  | succ n ih =>
      simp only [buildWorkerTasks]
      refine List.Pairwise.cons ?_ (ih _ _ _)
      intro t ht
      have hb := buildWorkerTasks_bounds n ups _ (tid + 1) _ t ht
      have h1 := hb.1
      simp only [] at h1 ⊢
      omega

theorem buildWorkerTasks_union (n ups rem tid : Nat) (s x : Int) :
    (∃ t ∈ buildWorkerTasks n ups rem tid s, t.UserStart ≤ x ∧ x ≤ t.UserEnd) ↔
      s ≤ x ∧ x < s + ((n * ups + min rem n : Nat) : Int) := by
  induction n generalizing rem tid s with
  | zero =>
      simp only [buildWorkerTasks, List.not_mem_nil, false_and, exists_false,
        exists_prop, false_iff, Nat.zero_mul, Nat.zero_add]
      simp only [Nat.min_zero]
      omega
  | succ n ih =>
      simp only [buildWorkerTasks, List.mem_cons, exists_eq_or_imp]
      by_cases h : 0 < rem
      · simp only [if_pos h]
        rw [ih]
        have htot : (n + 1) * ups + min rem (n + 1) = ups + 1 + (n * ups + min (rem - 1) n) := by
          rw [Nat.succ_mul]
          omega
        rw [htot]
        generalize n * ups + min (rem - 1) n = m
        omega
      · simp only [if_neg h]
        rw [ih]
        have htot : (n + 1) * ups + min rem (n + 1) = ups + (n * ups + min rem n) := by
          rw [Nat.succ_mul]
          omega
        rw [htot]
        generalize n * ups + min rem n = m
        omega

/-- Number of list positions covered by a RetryWorkerTask's inclusive range. -/
def retryTaskSize (t : RetryWorkerTask) : Nat := t.UserEnd + 1 - t.UserStart

/-- Consecutiveness over 0-based list positions for retry tasks. -/
def chainFromR (s : Nat) : List RetryWorkerTask → Prop
  | [] => True
  | t :: ts => t.UserStart = s ∧ chainFromR (t.UserEnd + 1) ts

theorem buildRetryTasks_sizes (fus : List FailedUser) (n ups rem tid s : Nat) :
    ((buildRetryTasks fus n ups rem tid s).map retryTaskSize).sum
      = n * ups + (min rem (tid + n) - min rem tid) := by
  induction n generalizing tid s with
  | zero => simp [buildRetryTasks]
  | succ n ih =>
      simp only [buildRetryTasks]
      by_cases h1 : tid < rem
      · simp only [if_pos h1, if_pos (Nat.succ_pos ups), List.map_cons,
          List.sum_cons, ih, retryTaskSize]
        rw [Nat.succ_mul]
        omega
      · simp only [if_neg h1]
        by_cases h2 : 0 < ups
        · simp only [if_pos h2, List.map_cons, List.sum_cons, ih, retryTaskSize]
          rw [Nat.succ_mul]
          omega
        · simp only [if_neg h2, ih]
          rw [Nat.succ_mul]
          omega

theorem buildRetryTasks_chain (fus : List FailedUser) (n ups rem tid s : Nat) :
    chainFromR s (buildRetryTasks fus n ups rem tid s) := by
  induction n generalizing tid s with
  | zero => simp [buildRetryTasks, chainFromR]
  | succ n ih =>
      simp only [buildRetryTasks]
      by_cases h1 : tid < rem
      · simp only [if_pos h1, if_pos (Nat.succ_pos ups), chainFromR]
        refine ⟨by simp, ih _ _⟩
      · simp only [if_neg h1]
        by_cases h2 : 0 < ups
        · simp only [if_pos h2, chainFromR]
          refine ⟨by simp, ih _ _⟩
        · simp only [if_neg h2]
          exact ih _ _

theorem buildRetryTasks_bounds (fus : List FailedUser) (n ups rem tid s : Nat) :
    ∀ t ∈ buildRetryTasks fus n ups rem tid s,
      s ≤ t.UserStart ∧ t.UserStart ≤ t.UserEnd ∧ t.FailedUsers = fus := by
  induction n generalizing tid s with
  | zero => simp [buildRetryTasks]
  | succ n ih =>
      intro t ht
      simp only [buildRetryTasks] at ht
      by_cases h1 : tid < rem
      · simp only [if_pos h1, if_pos (Nat.succ_pos ups), List.mem_cons] at ht
        rcases ht with h | h
        · subst h
          refine ⟨le_refl _, by simp only []; omega, rfl⟩
        · have hb := ih _ _ t h
          exact ⟨by omega, hb.2⟩
      · simp only [if_neg h1] at ht
        by_cases h2 : 0 < ups
        · simp only [if_pos h2, List.mem_cons] at ht
          rcases ht with h | h
          · subst h
            refine ⟨le_refl _, by simp only []; omega, rfl⟩
          · have hb := ih _ _ t h
            exact ⟨by omega, hb.2⟩
        · simp only [if_neg h2] at ht
          exact ih _ _ t ht

theorem buildRetryTasks_pairwise (fus : List FailedUser) (n ups rem tid s : Nat) :
    (buildRetryTasks fus n ups rem tid s).Pairwise (fun a b => a.UserEnd < b.UserStart) := by
  induction n generalizing tid s with
  | zero => simp [buildRetryTasks]
  | succ n ih =>
      simp only [buildRetryTasks]
      by_cases h1 : tid < rem
      · simp only [if_pos h1, if_pos (Nat.succ_pos ups)]
        refine List.Pairwise.cons ?_ (ih _ _)
        intro t ht
        have hb := buildRetryTasks_bounds fus n ups rem _ _ t ht
        have h1b := hb.1
        simp only [] at h1b ⊢
        omega
      · simp only [if_neg h1]
        by_cases h2 : 0 < ups
        · simp only [if_pos h2]
          refine List.Pairwise.cons ?_ (ih _ _)
          intro t ht
          have hb := buildRetryTasks_bounds fus n ups rem _ _ t ht
          have h1b := hb.1
          simp only [] at h1b ⊢
          omega
        · simp only [if_neg h2]
          exact ih _ _

theorem buildRetryTasks_union (fus : List FailedUser) (n ups rem tid s x : Nat) :
    (∃ t ∈ buildRetryTasks fus n ups rem tid s, t.UserStart ≤ x ∧ x ≤ t.UserEnd) ↔
      s ≤ x ∧ x < s + (n * ups + (min rem (tid + n) - min rem tid)) := by
  induction n generalizing tid s with
  | zero =>
      simp [buildRetryTasks]
  | succ n ih =>
      simp only [buildRetryTasks]
      by_cases h1 : tid < rem
      · simp only [if_pos h1, if_pos (Nat.succ_pos ups), List.mem_cons,
          exists_eq_or_imp]
        rw [ih]
        have htot : (n + 1) * ups + (min rem (tid + (n + 1)) - min rem tid)
            = ups + 1 + (n * ups + (min rem (tid + 1 + n) - min rem (tid + 1))) := by
          rw [Nat.succ_mul]
          omega
        rw [htot]
        generalize n * ups + (min rem (tid + 1 + n) - min rem (tid + 1)) = m
        omega
      · simp only [if_neg h1]
        have htot : (n + 1) * ups + (min rem (tid + (n + 1)) - min rem tid)
            = ups + (n * ups + (min rem (tid + 1 + n) - min rem (tid + 1))) := by
          rw [Nat.succ_mul]
          omega
        by_cases h2 : 0 < ups
        · simp only [if_pos h2, List.mem_cons, exists_eq_or_imp]
          rw [ih, htot]
          generalize n * ups + (min rem (tid + 1 + n) - min rem (tid + 1)) = m
          omega
        · simp only [if_neg h2]
          rw [ih, htot]
          generalize n * ups + (min rem (tid + 1 + n) - min rem (tid + 1)) = m
          omega

theorem buildRoleSpawns_nonempty (n tpt rem tid : Nat) (s : Int) :
    ∀ r ∈ buildRoleSpawns n tpt rem tid s, r.TenantStart ≤ r.TenantEnd := by
  induction n generalizing tid s with
  | zero => simp [buildRoleSpawns]
  | succ n ih =>
      intro r hr
      simp only [buildRoleSpawns] at hr
      by_cases h1 : tid < rem
      · simp only [if_pos h1, if_pos (Nat.succ_pos tpt), List.mem_cons] at hr
        rcases hr with h | h
        · subst h
          simp only []
          omega
        · exact ih _ _ r h
      · simp only [if_neg h1] at hr
        by_cases h2 : 0 < tpt
        · simp only [if_pos h2, List.mem_cons] at hr
          rcases hr with h | h
          · subst h
            simp only []
            omega
          · exact ih _ _ r h
        · simp only [if_neg h2] at hr
          exact ih _ _ r hr

/-!
Worker-output counting lemmas.
-/

theorem intRangeIncl_length (lo hi : Int) :
    (intRangeIncl lo hi).length = (hi + 1 - lo).toNat := by
  rw [intRangeIncl, List.length_map, List.length_range]

theorem sum_map_fixed {α : Type} (l : List α) (k : Nat) :
    (l.map (fun _ => k)).sum = l.length * k := by
  induction l with
  | nil => simp
  | cons a l ih =>
      simp only [List.map_cons, List.sum_cons, ih, List.length_cons, Nat.succ_mul]
      omega

theorem userCreationWorker_length (client : CreateUserFn) (cfg : Config) (now : String)
    (wp : Bool) (task : WorkerTask) :
    ((userCreationWorker client cfg now wp task).1).length
      = taskSize task * cfg.Execution.NoOfTenants := by
  simp only [userCreationWorker, List.length_map, List.length_flatMap]
  have hinner : ∀ u : Int,
      ((List.length ∘ fun userIndex =>
        (intRangeIncl cfg.Execution.TenantStartNumber
            (cfg.Execution.TenantStartNumber + cfg.Execution.NoOfTenants - 1)).map
          (fun tenantIndex =>
            createUserIteration client cfg now task.ThreadID wp userIndex tenantIndex)) u)
        = cfg.Execution.NoOfTenants := by
    intro u
    simp only [Function.comp, List.length_map, intRangeIncl_length]
    have h1 : cfg.Execution.TenantStartNumber + (cfg.Execution.NoOfTenants : Int) - 1 + 1
        - cfg.Execution.TenantStartNumber = ((cfg.Execution.NoOfTenants : Nat) : Int) := by
      ring
    rw [h1, Int.toNat_natCast]
  rw [List.map_congr_left (fun u _ => hinner u), sum_map_fixed, intRangeIncl_length]
  rfl

/-!
Retry-worker lemmas.
-/

theorem retryLoop_spec (client : CreateUserFn) (now : String) (threadID : Nat)
    (users : List FailedUser) :
    retryLoop client now threadID users
      = (users.map (fun user =>
            match client user.TenantID user.Username with
            | Except.ok userResp =>
                { TenantIndex := user.TenantID, UserIndex := extractUserIndex user.Username,
                  ScimID := userResp.ID, Success := true, Error := none, ThreadID := threadID }
            | Except.error e =>
                { TenantIndex := user.TenantID, UserIndex := extractUserIndex user.Username,
                  ScimID := "", Success := false, Error := some e, ThreadID := threadID }),
         users.filterMap (fun user =>
            match client user.TenantID user.Username with
            | Except.ok _ => none
            | Except.error e =>
                some { TenantID := user.TenantID, Username := user.Username, Error := e,
                       Timestamp := now })) := by
  induction users with
  | nil => rfl
  | cons user rest ih =>
      simp only [retryLoop, List.map_cons, List.filterMap_cons, ih]
      cases hc : client user.TenantID user.Username with
      | ok userResp => simp [hc]
      | error e => simp [hc]

/-!
Ledger lemmas.
-/

/-- The row produced for one failed operation. -/
def encodeFailedUser (r : FailedUser) : List String :=
  [Sprintf_d r.TenantID, r.Username, r.Error, r.Timestamp]

/-- Writing a sequence of failure records through WriteFailedUser, in order. -/
def writeAllFailedUsers (rows : List (List String)) (rs : List FailedUser) :
    List (List String) :=
  rs.foldl (fun acc r => WriteFailedUser acc r.TenantID r.Username r.Error r.Timestamp) rows

theorem writeAllFailedUsers_eq (rows : List (List String)) (rs : List FailedUser) :
    writeAllFailedUsers rows rs = rows ++ rs.map encodeFailedUser := by
  induction rs generalizing rows with
  | nil => simp [writeAllFailedUsers]
  | cons r rest ih =>
      simp only [writeAllFailedUsers, List.foldl_cons, List.map_cons] at ih ⊢
      rw [ih]
      simp [WriteFailedUser, encodeFailedUser]

theorem parseFailedUserRows_encode (rs : List FailedUser) :
    parseFailedUserRows (rs.map encodeFailedUser) = rs := by
  induction rs with
  | nil => rfl
  | cons r rest ih =>
      simp only [List.map_cons, encodeFailedUser, parseFailedUserRows]
      rw [if_neg (by simp)]
      rw [show ([Sprintf_d r.TenantID, r.Username, r.Error, r.Timestamp].getD 0 "")
          = Sprintf_d r.TenantID from rfl]
      rw [Atoi_Sprintf_d]
      simp only []
      rw [ih]
      rfl

/-!
Ramp-up lemma.
-/

theorem launchWorkers_times (delay : Nat) (tasks : List WorkerTask) (clock i : Nat)
    (hi : i < tasks.length) :
    ((launchWorkers delay tasks clock).map Prod.fst).getD i 0 = clock + i * delay := by
  induction tasks generalizing clock i with
  | nil => simp at hi
  | cons task rest ih =>
      cases i with
      | zero => simp [launchWorkers]
      | succ i =>
          simp only [launchWorkers, List.map_cons, List.getD_cons_succ]
          rw [ih _ _ (by simpa using hi)]
          have heff : (if 0 < delay then delay else 0) = delay := by
            by_cases h : 0 < delay
            · rw [if_pos h]
            · rw [if_neg h]
              omega
          rw [heff, Nat.succ_mul]
          omega

/-!
Stats invariant lemma.
-/

theorem foldl_applyEvent_inv (es : List StatEvent) (ts : TestStats)
    (h1 : ts.TotalRoles = ts.SuccessRoles + ts.FailedRoles)
    (h2 : ts.TotalUsers = ts.SuccessUsers + ts.FailedUsers) :
    (es.foldl applyEvent ts).TotalRoles
        = (es.foldl applyEvent ts).SuccessRoles + (es.foldl applyEvent ts).FailedRoles
    ∧ (es.foldl applyEvent ts).TotalUsers
        = (es.foldl applyEvent ts).SuccessUsers + (es.foldl applyEvent ts).FailedUsers := by
  induction es generalizing ts with
  | nil => exact ⟨h1, h2⟩
  | cons e rest ih =>
      simp only [List.foldl_cons]
      apply ih
      · cases e with
        | role b => cases b <;> simp [applyEvent, TestStats.IncrementRole] <;> omega
        | user b => cases b <;> simp [applyEvent, TestStats.IncrementUser] <;> omega
      · cases e with
        | role b => cases b <;> simp [applyEvent, TestStats.IncrementRole] <;> omega
        | user b => cases b <;> simp [applyEvent, TestStats.IncrementUser] <;> omega

/-!
Claim theorems.
-/

/-- Claim C1: for every total ≥ 0, workers ≥ 1 and rangeStart, the
partitioning performed before spawning workers — both the user-creation
partition over the integer interval starting at rangeStart and the retry
partition over 0-based list positions — yields an ordered sequence of ranges
that are contiguous (the first at the range start, each next one starting
immediately after the previous one's end), pairwise non-overlapping, whose
sizes sum to the total, and whose union is exactly the interval
[rangeStart, rangeStart+total-1]. -/
theorem C1_partition_coverage (total workers : Nat) (rangeStart : Int)
    (fus : List FailedUser) (hw : 1 ≤ workers) :
    (chainFrom rangeStart (ExecuteUserCreationTasks total workers rangeStart)
      ∧ (ExecuteUserCreationTasks total workers rangeStart).Pairwise
          (fun a b => a.UserEnd < b.UserStart)
      ∧ ((ExecuteUserCreationTasks total workers rangeStart).map taskSize).sum = total
      ∧ ∀ x : Int,
          (∃ t ∈ ExecuteUserCreationTasks total workers rangeStart,
              t.UserStart ≤ x ∧ x ≤ t.UserEnd)
            ↔ rangeStart ≤ x ∧ x ≤ rangeStart + (total : Int) - 1)
    ∧ (chainFromR 0 (ExecuteRetryFailedTasks fus workers)
      ∧ (ExecuteRetryFailedTasks fus workers).Pairwise (fun a b => a.UserEnd < b.UserStart)
      ∧ ((ExecuteRetryFailedTasks fus workers).map retryTaskSize).sum = fus.length
      ∧ ∀ x : Nat,
          (∃ t ∈ ExecuteRetryFailedTasks fus workers, t.UserStart ≤ x ∧ x ≤ t.UserEnd)
            ↔ x < fus.length) := by
  have hmod : total % workers < workers := Nat.mod_lt _ (by omega)
  have hdm := Nat.div_add_mod total workers
  have hU : workers * (total / workers) + min (total % workers) workers = total := by omega
  have hmodL : fus.length % workers < workers := Nat.mod_lt _ (by omega)
  have hdmL := Nat.div_add_mod fus.length workers
  have hL : workers * (fus.length / workers)
      + (min (fus.length % workers) (0 + workers) - min (fus.length % workers) 0)
      = fus.length := by omega
  simp only [ExecuteUserCreationTasks, ExecuteRetryFailedTasks]
  refine ⟨⟨buildWorkerTasks_chain _ _ _ _ _, buildWorkerTasks_pairwise _ _ _ _ _, ?_, ?_⟩,
    ⟨buildRetryTasks_chain _ _ _ _ _ _, buildRetryTasks_pairwise _ _ _ _ _ _, ?_, ?_⟩⟩
  · rw [buildWorkerTasks_sizes, hU]
  · intro x
    rw [buildWorkerTasks_union, hU]
    omega
  · rw [buildRetryTasks_sizes, hL]
  · intro x
    rw [buildRetryTasks_union, hL]
    omega

theorem C1_partition_coverage_witness :
    (1 ≤ 3 ∧ ((ExecuteUserCreationTasks 10 3 1).map taskSize).sum = 10)
    ∧ ((ExecuteRetryFailedTasks
          [{ TenantID := 1, Username := "a_1", Error := "e", Timestamp := "t" },
           { TenantID := 2, Username := "a_2", Error := "e", Timestamp := "t" }] 3).map
        retryTaskSize).sum = 2 :=
  ⟨⟨by decide,
    (C1_partition_coverage 10 3 1
      [{ TenantID := 1, Username := "a_1", Error := "e", Timestamp := "t" },
       { TenantID := 2, Username := "a_2", Error := "e", Timestamp := "t" }]
      (by decide)).1.2.2.1⟩,
   (C1_partition_coverage 10 3 1
      [{ TenantID := 1, Username := "a_1", Error := "e", Timestamp := "t" },
       { TenantID := 2, Username := "a_2", Error := "e", Timestamp := "t" }]
      (by decide)).2.2.2.1⟩

/-- Claim C2: with usersTotal = U and tenantsTotal = K, the user-creation
pool sends exactly U × K results to the reporting channel for every thread
count ≥ 1, because each worker crosses every user index of its range with
every configured tenant. -/
theorem C2_outcome_count (client : CreateUserFn) (cfg : Config) (now : String)
    (wp : Bool) (hw : 1 ≤ cfg.Execution.NoOfThreads) :
    ((ExecuteUserCreationTasks cfg.Execution.NoOfUsers cfg.Execution.NoOfThreads
        cfg.Execution.UserStartNumber).map
      (fun task => ((userCreationWorker client cfg now wp task).1).length)).sum
      = cfg.Execution.NoOfUsers * cfg.Execution.NoOfTenants := by
  rw [List.map_congr_left
    (fun task _ => userCreationWorker_length client cfg now wp task)]
  rw [List.sum_map_mul_right]
  simp only [ExecuteUserCreationTasks]
  rw [buildWorkerTasks_sizes]
  have hmod : cfg.Execution.NoOfUsers % cfg.Execution.NoOfThreads
      < cfg.Execution.NoOfThreads := Nat.mod_lt _ (by omega)
  have hdm := Nat.div_add_mod cfg.Execution.NoOfUsers cfg.Execution.NoOfThreads
  congr 1
  omega

theorem C2_outcome_count_witness :
    1 ≤ 2
    ∧ ((ExecuteUserCreationTasks 3 2 1).map
        (fun task =>
          ((userCreationWorker (fun _ _ => Except.error "down")
              { UsernamePfx := "isTestUser_",
                Execution :=
                  { NoOfThreads := 2, NoOfUsers := 3, NoOfTenants := 2,
                    UserStartNumber := 1, TenantStartNumber := 1, RampUpPeriod := 0 } }
              "2026-01-01" true task).1).length)).sum = 3 * 2 :=
  ⟨by decide,
   C2_outcome_count (fun _ _ => Except.error "down")
     { UsernamePfx := "isTestUser_",
       Execution :=
         { NoOfThreads := 2, NoOfUsers := 3, NoOfTenants := 2,
           UserStartNumber := 1, TenantStartNumber := 1, RampUpPeriod := 0 } }
     "2026-01-01" true (by decide)⟩

/-- Claim C3: for both stat categories, after any serialised sequence of
observe calls on the fresh stats object the invariant total = success + failed
holds, and each increment call adds exactly 1 to the category's total and
exactly 1 to success or failed according to the outcome's success flag,
leaving the other category untouched. -/
theorem C3_stats_invariant :
    (∀ es : List StatEvent,
        (applyEvents es).TotalRoles
            = (applyEvents es).SuccessRoles + (applyEvents es).FailedRoles
          ∧ (applyEvents es).TotalUsers
            = (applyEvents es).SuccessUsers + (applyEvents es).FailedUsers)
    ∧ (∀ (ts : TestStats) (b : Bool),
        (ts.IncrementRole b).TotalRoles = ts.TotalRoles + 1
          ∧ (ts.IncrementRole b).SuccessRoles = ts.SuccessRoles + (if b then 1 else 0)
          ∧ (ts.IncrementRole b).FailedRoles = ts.FailedRoles + (if b then 0 else 1)
          ∧ (ts.IncrementRole b).TotalUsers = ts.TotalUsers
          ∧ (ts.IncrementRole b).SuccessUsers = ts.SuccessUsers
          ∧ (ts.IncrementRole b).FailedUsers = ts.FailedUsers)
    ∧ (∀ (ts : TestStats) (b : Bool),
        (ts.IncrementUser b).TotalUsers = ts.TotalUsers + 1
          ∧ (ts.IncrementUser b).SuccessUsers = ts.SuccessUsers + (if b then 1 else 0)
          ∧ (ts.IncrementUser b).FailedUsers = ts.FailedUsers + (if b then 0 else 1)
          ∧ (ts.IncrementUser b).TotalRoles = ts.TotalRoles
          ∧ (ts.IncrementUser b).SuccessRoles = ts.SuccessRoles
          ∧ (ts.IncrementUser b).FailedRoles = ts.FailedRoles) := by
  refine ⟨fun es => ?_, fun ts b => ?_, fun ts b => ?_⟩
  · exact foldl_applyEvent_inv es NewTestStats rfl rfl
  · cases b <;> simp [TestStats.IncrementRole]
  · cases b <;> simp [TestStats.IncrementUser]

/-- Claim C5 fails on the code: with 1 user and 2 threads, ExecuteUserCreation
builds a zero-length second range (UserEnd < UserStart) and still spawns a
worker for it, so the number of spawned user-creation workers is the thread
count, not the number of non-empty ranges. -/
theorem C5_cex :
    (ExecuteUserCreationTasks 1 2 1).length = 2
    ∧ ∃ t ∈ ExecuteUserCreationTasks 1 2 1, t.UserEnd < t.UserStart := by
  decide

/-- Claim C5 (amended): the role-creation and retry phases spawn workers only
for non-empty ranges (every spawned range satisfies start ≤ end), while the
user-creation phase spawns exactly one worker per thread, including for
zero-length ranges. -/
theorem C5_spawn_amended (noOfTenants noOfUsers noOfThreads : Nat)
    (tenantStartNumber userStartNumber : Int) (fus : List FailedUser) :
    (∀ r ∈ ExecuteRoleCreationSpawns noOfTenants noOfThreads tenantStartNumber,
        r.TenantStart ≤ r.TenantEnd)
    ∧ (∀ t ∈ ExecuteRetryFailedTasks fus noOfThreads, t.UserStart ≤ t.UserEnd)
    ∧ (ExecuteUserCreationTasks noOfUsers noOfThreads userStartNumber).length
        = noOfThreads := by
  refine ⟨?_, ?_, ?_⟩
  · simp only [ExecuteRoleCreationSpawns]
    exact buildRoleSpawns_nonempty _ _ _ _ _
  · simp only [ExecuteRetryFailedTasks]
    intro t ht
    exact (buildRetryTasks_bounds _ _ _ _ _ _ t ht).2.1
  · simp only [ExecuteUserCreationTasks]
    exact buildWorkerTasks_length _ _ _ _ _

theorem C5_spawn_amended_witness :
    (∀ r ∈ ExecuteRoleCreationSpawns 5 2 1, r.TenantStart ≤ r.TenantEnd)
    ∧ (ExecuteUserCreationTasks 1 2 1).length = 2 :=
  ⟨(C5_spawn_amended 5 1 2 1 1 []).1, (C5_spawn_amended 5 1 2 1 1 []).2.2⟩

/-- Claim C4 fails on the code: starting from an existing but empty ledger
file (zero data rows), ExecuteRetryFailed first opens the ledger CSV for
writing in append mode and, the file being empty, writes a header row to it —
so CSV resources are opened for writing and a new record (the header row) is
written, before the zero-row check returns. -/
theorem C4_cex :
    (ExecuteRetryFailedSetup (some []) 3).openedLedgerForWrite = true
    ∧ (ExecuteRetryFailedSetup (some []) 3).ledgerRows = [ledgerHeader]
    ∧ (ExecuteRetryFailedSetup (some []) 3).ledgerRows ≠ [] := by
  decide

/-- Claim C4 (amended): when the ledger contains zero data rows, the retry
entry point spawns no workers, parses no failed users, reports zero total
operations (the final stats are the fresh stats), and writes no data records —
though it does open the ledger in append mode first, adding at most a header
row when the file was empty. -/
theorem C4_empty_ledger_amended (rows : List (List String)) (noOfThreads : Nat)
    (client : CreateUserFn) (now : String)
    (h : readFailedUsersFromCSV rows = []) :
    (ExecuteRetryFailedSetup (some rows) noOfThreads).tasks = []
    ∧ (ExecuteRetryFailedSetup (some rows) noOfThreads).failedUsers = []
    ∧ ((ExecuteRetryFailedSetup (some rows) noOfThreads).ledgerRows = rows
        ∨ (ExecuteRetryFailedSetup (some rows) noOfThreads).ledgerRows = [ledgerHeader])
    ∧ retryRunStats client now (some rows) noOfThreads = NewTestStats := by
  by_cases hrows : rows = []
  · subst hrows
    have hsetup : ExecuteRetryFailedSetup (some []) noOfThreads
        = { ledgerRows := [ledgerHeader], openedLedgerForWrite := true,
            failedUsers := [], tasks := [] } := rfl
    refine ⟨by rw [hsetup], by rw [hsetup], Or.inr (by rw [hsetup]), ?_⟩
    simp only [retryRunStats, hsetup]
    rfl
  · have happend : NewFailedUsersCSVWriterAppendRows (some rows) = rows := by
      simp [NewFailedUsersCSVWriterAppendRows, hrows]
    have hsetup : ExecuteRetryFailedSetup (some rows) noOfThreads
        = { ledgerRows := rows, openedLedgerForWrite := true,
            failedUsers := [], tasks := [] } := by
      simp only [ExecuteRetryFailedSetup, happend, h]
      rfl
    refine ⟨by rw [hsetup], by rw [hsetup], Or.inl (by rw [hsetup]), ?_⟩
    simp only [retryRunStats, hsetup]
    rfl

theorem C4_empty_ledger_amended_witness :
    readFailedUsersFromCSV [ledgerHeader] = []
    ∧ (ExecuteRetryFailedSetup (some [ledgerHeader]) 2).tasks = []
    ∧ retryRunStats (fun _ _ => Except.error "down") "t" (some [ledgerHeader]) 2
        = NewTestStats :=
  ⟨by decide,
   (C4_empty_ledger_amended [ledgerHeader] 2 (fun _ _ => Except.error "down") "t"
     (by decide)).1,
   (C4_empty_ledger_amended [ledgerHeader] 2 (fun _ _ => Except.error "down") "t"
     (by decide)).2.2.2⟩

/-- Claim C6: for every client behaviour, every retry worker's attempts are
exactly one CreateUserWithName call per ledger record of its slice, invoked on
the record's stored TenantID and Username verbatim — the emitted results and
the re-appended failure rows are fully determined by the client's answer at
(record.TenantID, record.Username), and the username is never regenerated
from a numeric index. -/
theorem C6_retry_verbatim (client : CreateUserFn) (now : String)
    (task : RetryWorkerTask) :
    retryUsersWorkerScalable client now task
      = ((usersToRetry task).map (fun user =>
            match client user.TenantID user.Username with
            | Except.ok userResp =>
                { TenantIndex := user.TenantID, UserIndex := extractUserIndex user.Username,
                  ScimID := userResp.ID, Success := true, Error := none,
                  ThreadID := task.ThreadID }
            | Except.error e =>
                { TenantIndex := user.TenantID, UserIndex := extractUserIndex user.Username,
                  ScimID := "", Success := false, Error := some e,
                  ThreadID := task.ThreadID }),
         (usersToRetry task).filterMap (fun user =>
            match client user.TenantID user.Username with
            | Except.ok _ => none
            | Except.error e =>
                some { TenantID := user.TenantID, Username := user.Username, Error := e,
                       Timestamp := now })) := by
  simp only [retryUsersWorkerScalable]
  exact retryLoop_spec client now task.ThreadID (usersToRetry task)

/-- Claim C7: writing any sequence of failure records through the fresh
failed-users writer and reading the ledger back through the retry reader
yields exactly the same records with the same field values in the same order,
the header row excluded. -/
theorem C7_ledger_roundtrip (rs : List FailedUser) :
    readFailedUsersFromCSV (writeAllFailedUsers NewFailedUsersCSVWriterRows rs) = rs := by
  rw [writeAllFailedUsers_eq]
  simp only [NewFailedUsersCSVWriterRows, List.singleton_append]
  have hcond : 0 < (ledgerHeader :: rs.map encodeFailedUser).length
      ∧ (((ledgerHeader :: rs.map encodeFailedUser).headD []).getD 0 "" = "TenantID"
        ∨ ((ledgerHeader :: rs.map encodeFailedUser).headD []).getD 0 "" = "Tenant ID") := by
    exact ⟨by simp, Or.inl rfl⟩
  simp only [readFailedUsersFromCSV]
  rw [if_pos hcond]
  simp only [List.drop_succ_cons, List.drop_zero]
  exact parseFailedUserRows_encode rs

/-- Claim C8 fails on the code: with workerCount = 0 the ramp-up delay
computation divides a Duration by zero, which panics in Go (modelled as none);
the computed delay is not 0 and the workers do not start. -/
theorem C8_cex :
    rampUpDelayNanos 10 0 = none ∧ rampUpDelayNanos 10 0 ≠ some 0 := by
  decide

/-- Claim C8 (amended): for workerCount ≥ 1 the launch of the i-th worker
(0-based) is delayed by i × (rampWindow / workerCount) relative to launch
start (integer division over nanoseconds), applied by the launcher sleeping
between successive spawns; if rampWindow = 0 the delay is 0 and all workers
start immediately.  With workerCount = 0 the delay computation panics
(see the counterexample) instead of yielding 0. -/
theorem C8_rampup_amended (rampUpPeriod noOfThreads : Nat) (tasks : List WorkerTask)
    (clock i : Nat) (hw : 1 ≤ noOfThreads) (hi : i < tasks.length) :
    ∃ d, rampUpDelayNanos rampUpPeriod noOfThreads = some d
      ∧ d = rampUpPeriod * 1000000000 / noOfThreads
      ∧ ((launchWorkers d tasks clock).map Prod.fst).getD i 0 = clock + i * d
      ∧ (rampUpPeriod = 0 →
          ((launchWorkers d tasks clock).map Prod.fst).getD i 0 = clock) := by
  refine ⟨rampUpPeriod * 1000000000 / noOfThreads, ?_, rfl, ?_, ?_⟩
  · rw [rampUpDelayNanos, if_neg (by omega)]
  · exact launchWorkers_times _ _ _ _ hi
  · intro h0
    subst h0
    rw [launchWorkers_times _ _ _ _ hi]
    simp

theorem C8_rampup_amended_witness :
    ∃ d, rampUpDelayNanos 4 2 = some d
      ∧ d = 4 * 1000000000 / 2
      ∧ ((launchWorkers d
            [{ UserStart := 1, UserEnd := 2, ThreadID := 0 },
             { UserStart := 3, UserEnd := 4, ThreadID := 1 }] 0).map Prod.fst).getD 1 0
          = 0 + 1 * d
      ∧ ((4 : Nat) = 0 →
          ((launchWorkers d
            [{ UserStart := 1, UserEnd := 2, ThreadID := 0 },
             { UserStart := 3, UserEnd := 4, ThreadID := 1 }] 0).map Prod.fst).getD 1 0
          = 0) :=
  C8_rampup_amended 4 2
    [{ UserStart := 1, UserEnd := 2, ThreadID := 0 },
     { UserStart := 3, UserEnd := 4, ThreadID := 1 }] 0 1 (by decide) (by decide)

/-- Claim C9 fails on the code: on a category whose total is 0, PrintStats
does not report a percentage of 0 — it omits the percentage line entirely
(no rate value is produced at all). -/
theorem C9_cex :
    PrintStatsRates NewTestStats = (none, none)
    ∧ (PrintStatsRates NewTestStats).1 ≠ some 0
    ∧ (PrintStatsRates NewTestStats).2 ≠ some 0 := by
  decide

/-- Claim C9 (amended): the final report computes each category's success
percentage as success/total × 100 exactly when total > 0, and when total = 0
it omits that category's percentage line instead of reporting 0; no division
by zero is ever performed. -/
theorem C9_rates_amended (ts : TestStats) :
    (0 < ts.TotalRoles → (PrintStatsRates ts).1
        = some ((ts.SuccessRoles : ℚ) / (ts.TotalRoles : ℚ) * 100))
    ∧ (ts.TotalRoles = 0 → (PrintStatsRates ts).1 = none)
    ∧ (0 < ts.TotalUsers → (PrintStatsRates ts).2
        = some ((ts.SuccessUsers : ℚ) / (ts.TotalUsers : ℚ) * 100))
    ∧ (ts.TotalUsers = 0 → (PrintStatsRates ts).2 = none) := by
  refine ⟨fun h => ?_, fun h => ?_, fun h => ?_, fun h => ?_⟩ <;>
    simp [PrintStatsRates, roleSuccessRate, userSuccessRate, h]

theorem C9_rates_amended_witness :
    (PrintStatsRates
        { TotalUsers := 4, SuccessUsers := 3, FailedUsers := 1,
          TotalRoles := 2, SuccessRoles := 1, FailedRoles := 1 }).1
      = some ((((1 : Nat)) : ℚ) / (((2 : Nat)) : ℚ) * 100)
    ∧ (PrintStatsRates
        { TotalUsers := 0, SuccessUsers := 0, FailedUsers := 0,
          TotalRoles := 2, SuccessRoles := 1, FailedRoles := 1 }).2 = none :=
  ⟨(C9_rates_amended
      { TotalUsers := 4, SuccessUsers := 3, FailedUsers := 1,
        TotalRoles := 2, SuccessRoles := 1, FailedRoles := 1 }).1 (by decide),
   (C9_rates_amended
      { TotalUsers := 0, SuccessUsers := 0, FailedUsers := 0,
        TotalRoles := 2, SuccessRoles := 1, FailedRoles := 1 }).2.2.2 (by decide)⟩

/-- Claim C10: constructing the executor in retry mode leaves the
failed-users ledger file completely untouched (same presence and contents as
before), while the scim-id result CSV is still deleted and recreated with a
fresh scim_id header even in retry mode. -/
theorem C10_retry_frame (fs : FileSystem) :
    (NewTestExecutorFS true fs).failedUsersCsv = fs.failedUsersCsv
    ∧ (NewTestExecutorFS true fs).scimIdCsv = some [["scim_id"]] :=
  ⟨rfl, rfl⟩

end ISPerf
